import Mathlib

/-!
Shallow embedding of the clavis validation core (Go) in Lean 4.

Conventions of the embedding:
* A Go `string` is a Lean `String`; Go `len(s)` counts UTF-8 bytes, embedded
  as `goLen` (`String.utf8ByteSize`).
* A Go `[]byte` is `Bytes := List Nat`.
* A plain Go `error` is `Option GoErr` with `GoErr := String` (the message
  produced by `fmt.Errorf`); `none` is Go `nil`.
* Go `any` values stored in errors/metadata are embedded as `GoVal`.
* A Go `map[string]any` is an association list with at most one entry per
  key; map assignment `m[k] = v` is `Go.mapSet` (replace-or-append), lookup
  is `Go.mapGet`.
* Pointer-receiver fluent setters (`WithCode`, `WithMetadata` on errors)
  mutate in place in Go; in the pure embedding they return the updated
  value, which is observationally the same for the properties proved here.
-/

namespace Clavis

/-- Go `[]byte`. -/
abbrev Bytes := List Nat

/-- A plain Go `error` value: its message string. -/
abbrev GoErr := String

/-- An embedded Go `any` value, covering the value shapes the validation
core actually stores (strings, ints, byte slices, `nil`). -/
inductive GoVal : Type
  | str (s : String)
  | int (n : Int)
  | bytes (b : Bytes)
  | nil
  deriving DecidableEq, Repr

/-- Rendering of a `GoVal` by Go `fmt`'s `%v` verb, as used in
`ValidationError.Error`'s default message. -/
def GoVal.render : GoVal → String
  | .str s => s
  | .int n => toString n
  | .bytes b => "[" ++ String.intercalate " " (b.map toString) ++ "]"
  | .nil => "<nil>"

/-- Go `len` on a string counts UTF-8 bytes. -/
def goLen (s : String) : Nat := s.utf8ByteSize

namespace Go

/-- Go map assignment `m[k] = v` on the association-list model: replace the
value at `k` when present, append the entry otherwise. -/
def mapSet (m : List (String × GoVal)) (k : String) (v : GoVal) :
    List (String × GoVal) :=
  if m.any (fun p => p.1 = k) then
    m.map (fun p => if p.1 = k then (k, v) else p)
  else
    m ++ [(k, v)]

/-- Go map lookup `m[k]`. -/
def mapGet (m : List (String × GoVal)) (k : String) : Option GoVal :=
  (m.find? (fun p => p.1 = k)).map (·.2)

end Go

/-- `Context` from `internal/model/validation/context.go`: the target field
plus a metadata bag. -/
structure Context : Type where
  Target : String
  Metadata : List (String × GoVal)
  deriving DecidableEq, Repr

/-- `NewContext` creates a context with an empty metadata bag. -/
def NewContext (target : String) : Context :=
  { Target := target, Metadata := [] }

/-- `Context.WithMetadata`: copy the metadata into a fresh map, add the new
entry, and return a new context; the receiver is a value and is unchanged. -/
def Context.WithMetadata (c : Context) (key : String) (value : GoVal) :
    Context :=
  { Target := c.Target, Metadata := Go.mapSet c.Metadata key value }

/-- `ErrorData` from `internal/model/errors/interface.go` (the revision used
by `internal/model/validation/errors.go`, where `Message` is a `*string`). -/
structure ErrorData : Type where
  ErrType : String
  Code : String
  Metadata : List (String × GoVal)
  Message : Option String
  deriving DecidableEq, Repr

/-- `NewErrorData` creates a new `ErrorData` with an empty metadata map.
The Go field `Type` is embedded as `ErrType` because `Type` is a Lean
keyword. -/
def NewErrorData (errType : String) (code : String) (message : Option String) :
    ErrorData :=
  { ErrType := errType, Code := code, Metadata := [], Message := message }

/-- `ErrorData.WithCode` sets the code and returns the data. -/
def ErrorData.WithCode (e : ErrorData) (code : String) : ErrorData :=
  { e with Code := code }

/-- The constant `errType` of `internal/model/validation/errors.go`. -/
def errType : String := "validation"

/-- The constant `defaultCode` of `internal/model/validation/errors.go`. -/
def defaultCode : String := "validation-failed"

/-- `ValidationError` from `internal/model/validation/errors.go`: target,
rejected value, and the embedded `*errors.ErrorData`. -/
structure ValidationError : Type where
  errorData : ErrorData
  Target : String
  Value : GoVal
  deriving DecidableEq, Repr

/-- `NewValidationError` builds an error of type `"validation"`, default code
`"validation-failed"`, empty metadata, and the given message. -/
def NewValidationError (target : String) (value : GoVal) (message : String) :
    ValidationError :=
  { Target := target
    Value := value
    errorData := NewErrorData errType defaultCode (some message) }

/-- `ValidationError.WithMetadata` adds a metadata entry and returns the
error (an in-place fluent setter in Go). -/
def ValidationError.WithMetadata (ve : ValidationError) (key : String)
    (value : GoVal) : ValidationError :=
  { ve with errorData :=
      { ve.errorData with
          Metadata := Go.mapSet ve.errorData.Metadata key value } }

/-- `ValidationError.WithCode` sets the code and returns the error. -/
def ValidationError.WithCode (ve : ValidationError) (code : String) :
    ValidationError :=
  { ve with errorData := ve.errorData.WithCode code }

/-- `ValidationError.Error`: the custom message when one is present,
otherwise the default `"<target>: validation failed for \"<value>\""`. -/
def ValidationError.Error (ve : ValidationError) : String :=
  match ve.errorData.Message with
  | some m => m
  | none =>
      ve.Target ++ ": validation failed for \"" ++ ve.Value.render ++ "\""

/-- `ValidationError.Code` accessor. -/
def ValidationError.Code (ve : ValidationError) : String := ve.errorData.Code

/-- `ValidationError.TypeOf` accessor (Go method `Type()`). -/
def ValidationError.TypeOf (ve : ValidationError) : String :=
  ve.errorData.ErrType

/-- `ValidationResult` from `internal/model/validation/errors.go`: an ordered
list of validation errors. -/
structure ValidationResult : Type where
  Errors : List ValidationError
  deriving DecidableEq, Repr

/-- `NewValidationResult` creates an empty result. -/
def NewValidationResult : ValidationResult := { Errors := [] }

/-- `ValidationResult.Add` appends one error, preserving order. -/
def ValidationResult.Add (r : ValidationResult) (e : ValidationError) :
    ValidationResult :=
  { Errors := r.Errors ++ [e] }

/-- `ValidationResult.HasErrors`. -/
def ValidationResult.HasErrors (r : ValidationResult) : Bool :=
  !r.Errors.isEmpty

/-- `ValidationResult.Error`: all messages joined with `"; "`, with a fixed
fallback when the result is empty. -/
def ValidationResult.Error (r : ValidationResult) : String :=
  match r.Errors with
  | [] => "validation failed"
  | _ => String.intercalate "; " (r.Errors.map ValidationError.Error)

/-- `Validator[T]` from the validators package: an optional name and the
validation function. -/
structure Validator (T : Type) : Type where
  Name : Option String
  Validate : T → Context → Option ValidationError

/-- `NewValidator` creates a validator with just the function. -/
def NewValidator {T : Type}
    (validateFn : T → Context → Option ValidationError) : Validator T :=
  { Name := none, Validate := validateFn }

/-- `Validator.WithName` returns a new validator with the given name. -/
def Validator.WithName {T : Type} (v : Validator T) (name : String) :
    Validator T :=
  { Name := some name, Validate := v.Validate }

/-- `Validator.GetName` returns the assigned name or the default sentinel. -/
def Validator.GetName {T : Type} (v : Validator T) : String :=
  match v.Name with
  | some n => n
  | none => "unnamed-validator"

/-- `ValidatorChain[T]`: an ordered list of validators. -/
structure ValidatorChain (T : Type) : Type where
  validators : List (Validator T)

/-- `NewValidatorChain` creates a chain from the given validators. -/
def NewValidatorChain {T : Type} (vs : List (Validator T)) :
    ValidatorChain T :=
  { validators := vs }

/-- `ValidatorChain.Add` appends a validator (mutating in place in Go). -/
def ValidatorChain.Add {T : Type} (vc : ValidatorChain T) (v : Validator T) :
    ValidatorChain T :=
  { validators := vc.validators ++ [v] }

/-- `ValidatorChain.Validate` runs all validators in add-order, collecting
every error into a `ValidationResult`. -/
def ValidatorChain.Validate {T : Type} (vc : ValidatorChain T) (value : T)
    (ctx : Context) : ValidationResult :=
  vc.validators.foldl
    (fun errs vd =>
      match vd.Validate value ctx with
      | some e => errs.Add e
      | none => errs)
    NewValidationResult

/-- Loop body of `ValidatorChain.ValidateFirst`. -/
def validateFirstAux {T : Type} :
    List (Validator T) → T → Context → Option ValidationError
  | [], _, _ => none
  | vd :: rest, value, ctx =>
      match vd.Validate value ctx with
      | some e => some e
      | none => validateFirstAux rest value ctx

/-- `ValidatorChain.ValidateFirst` runs validators in add-order and returns
the first error, skipping the remaining validators. -/
def ValidatorChain.ValidateFirst {T : Type} (vc : ValidatorChain T)
    (value : T) (ctx : Context) : Option ValidationError :=
  validateFirstAux vc.validators value ctx

/-- `ConditionalValidator[T]`: a validator gated by a predicate. -/
structure ConditionalValidator (T : Type) : Type where
  Condition : T → Context → Bool
  Validator : Validator T

/-- `ConditionalValidator.Validate` runs the inner validator only when the
condition holds. -/
def ConditionalValidator.Validate {T : Type} (cv : ConditionalValidator T)
    (value : T) (ctx : Context) : Option ValidationError :=
  if cv.Condition value ctx then cv.Validator.Validate value ctx else none

/-- Go `unicode.IsSpace`: the Unicode `White_Space` code points. -/
def isGoSpace (c : Char) : Bool :=
  [0x09, 0x0A, 0x0B, 0x0C, 0x0D, 0x20, 0x85, 0xA0, 0x1680,
    0x2000, 0x2001, 0x2002, 0x2003, 0x2004, 0x2005, 0x2006, 0x2007,
    0x2008, 0x2009, 0x200A, 0x2028, 0x2029, 0x202F, 0x205F, 0x3000].contains
    c.toNat

/-- Go `strings.TrimSpace`: drop leading and trailing white space. -/
def trimSpace (s : String) : String :=
  ⟨((s.toList.dropWhile isGoSpace).reverse.dropWhile isGoSpace).reverse⟩

/-- `NotEmpty` from the string validators: fails with code `"not-empty"`
when the whitespace-trimmed value is empty. -/
def NotEmpty : Validator String :=
  NewValidator fun value ctx =>
    if trimSpace value = "" then
      some ((NewValidationError ctx.Target (.str value)
        (ctx.Target ++ ": must not be empty")).WithCode "not-empty")
    else
      none

/-- `MaxLength` from the string validators: fails with code `"max-length"`
when `len(value)` exceeds `max` (Go `len` counts UTF-8 bytes). -/
def MaxLength (max : Int) : Validator String :=
  NewValidator fun value ctx =>
    if (goLen value : Int) > max then
      some ((((NewValidationError ctx.Target (.str value)
          (ctx.Target ++ ": must be at most " ++ toString max ++
            " characters, got " ++ toString (goLen value))).WithMetadata
          "max" (.int max)).WithMetadata
          "actual" (.int (goLen value))).WithCode "max-length")
    else
      none

/-- `Pattern` from the string validators, with Go's `regexp` engine treated
as an external collaborator: `compile` stands for `regexp.Compile`
(`none` on a syntactically invalid pattern) and `matchFn` for
`Regexp.MatchString`. `regexp.MustCompile` panics on a `Compile` failure;
the panic is embedded as `Except.error`. -/
def Pattern {R : Type} (compile : String → Option R)
    (matchFn : R → String → Bool) (pattern : String) :
    Except String (Validator String) :=
  match compile pattern with
  | none => .error ("regexp: Compile(`" ++ pattern ++ "`): invalid pattern")
  | some regex =>
      .ok (NewValidator fun value ctx =>
        if !(matchFn regex value) then
          some (((NewValidationError ctx.Target (.str value)
            (ctx.Target ++ ": does not match required pattern")).WithMetadata
            "pattern" (.str pattern)).WithCode "pattern-mismatch")
        else
          none)

/-- `InnerStore`: an arbitrary implementation of the storage contract of
`internal/store` that the decorator wraps (`Get/Put/Delete/Scan`; `Close`
carries no data relevant to the claims). -/
structure InnerStore : Type where
  get : String → Option Bytes × Bool × Option GoErr
  put : String → Bytes → Option GoErr
  delete : String → Option GoErr
  scan : String → List (String × Bytes) × Option GoErr
  close : Option GoErr

/-- `ValidatedStore` from `internal/store/validation/validated_store.go`:
an inner store plus a key validator and a value validator. In the source
the validators are either plain functions or the `StoreKeyValidator` /
`StoreValueValidator` adapters, whose `Validate` methods have exactly these
function types, so one embedding covers both revisions. -/
structure ValidatedStore : Type where
  inner : InnerStore
  keyValidator : String → Option GoErr
  valueValidator : String → Bytes → Option GoErr

/-- `New` constructs a `ValidatedStore`. -/
def New (s : InnerStore) (keyValidator : String → Option GoErr)
    (valueValidator : String → Bytes → Option GoErr) : ValidatedStore :=
  { inner := s, keyValidator := keyValidator,
    valueValidator := valueValidator }

/-- `ValidatedStore.Get`. The `Bool` in the second component records
whether the inner store was invoked (Go line `return f.inner.Get(key)`). -/
def ValidatedStore.Get (f : ValidatedStore) (key : String) :
    (Option Bytes × Bool × Option GoErr) × Bool :=
  match f.keyValidator key with
  | some err => ((none, false, some err), false)
  | none => (f.inner.get key, true)

/-- `ValidatedStore.Put`. The `Bool` records whether the inner store was
invoked. -/
def ValidatedStore.Put (f : ValidatedStore) (key : String) (value : Bytes) :
    Option GoErr × Bool :=
  match f.keyValidator key with
  | some err => (some err, false)
  | none =>
      match f.valueValidator key value with
      | some err => (some err, false)
      | none => (f.inner.put key value, true)

/-- `ValidatedStore.Delete`. The `Bool` records whether the inner store was
invoked. -/
def ValidatedStore.Delete (f : ValidatedStore) (key : String) :
    Option GoErr × Bool :=
  match f.keyValidator key with
  | some err => (some err, false)
  | none => (f.inner.delete key, true)

/-- `ValidatedStore.Scan` delegates directly, with no validation of its
argument. The `Bool` records that the inner store was invoked. -/
def ValidatedStore.Scan (f : ValidatedStore) (pfx : String) :
    (List (String × Bytes) × Option GoErr) × Bool :=
  (f.inner.scan pfx, true)

/-- `ValidateNonEmptyKey` from `internal/store/validation/validators.go`. -/
def ValidateNonEmptyKey (key : String) : Option GoErr :=
  if key = "" then some "key cannot be empty" else none

/-- `ValidateKeyLength` from `internal/store/validation/validators.go`. -/
def ValidateKeyLength (maxLength : Int) (key : String) : Option GoErr :=
  if (goLen key : Int) > maxLength then
    some ("key too long: maximum " ++ toString maxLength ++
      " characters, got " ++ toString (goLen key))
  else
    none

/-- `ValidateValueSize` from `internal/store/validation/validators.go`. -/
def ValidateValueSize (maxSize : Int) (key : String) (value : Bytes) :
    Option GoErr :=
  if (value.length : Int) > maxSize then
    some ("value too large: maximum " ++ toString maxSize ++
      " bytes, got " ++ toString value.length)
  else
    none

/-- `ComposeKeyValidators`: run the key validators in order, return the
first error. -/
def ComposeKeyValidators (vs : List (String → Option GoErr)) (key : String) :
    Option GoErr :=
  match vs with
  | [] => none
  | f :: rest =>
      match f key with
      | some err => some err
      | none => ComposeKeyValidators rest key

/-- `ComposeValueValidators`: run the value validators in order, return the
first error. -/
def ComposeValueValidators (vs : List (String → Bytes → Option GoErr))
    (key : String) (value : Bytes) : Option GoErr :=
  match vs with
  | [] => none
  | f :: rest =>
      match f key value with
      | some err => some err
      | none => ComposeValueValidators rest key value

/-- `NewWithDefaultValidators` (functional revision of
`validated_store.go`): non-empty key, key length at most 1024, value size
at most `ValueMaxSize = 100 * 1024 * 1024` bytes. -/
def NewWithDefaultValidators (s : InnerStore) : ValidatedStore :=
  New s
    (ComposeKeyValidators [ValidateNonEmptyKey, ValidateKeyLength 1024])
    (ComposeValueValidators [ValidateValueSize (100 * 1024 * 1024)])

/-- `StoreKeyValidator`: wraps a chain of validators for store keys. -/
structure StoreKeyValidator : Type where
  chain : ValidatorChain String

/-- `NewStoreKeyValidator`. -/
def NewStoreKeyValidator (validatorList : List (Validator String)) :
    StoreKeyValidator :=
  { chain := NewValidatorChain validatorList }

/-- `StoreKeyValidator.Validate`: run the chain's collect-all `Validate`
under a fresh `"key"` context; when it has errors, return the first one
converted to a plain error (`fmt.Errorf("%s", result.Errors[0].Error())`),
else `nil`. -/
def StoreKeyValidator.Validate (skv : StoreKeyValidator) (key : String) :
    Option GoErr :=
  let ctx := NewContext "key"
  let result := skv.chain.Validate key ctx
  match result.Errors with
  | [] => none
  | e :: _ => some e.Error

/-- `StoreValueValidator`: an ordered list of key-aware value checks. -/
structure StoreValueValidator : Type where
  validators : List (String → Bytes → Context → Option ValidationError)

/-- `NewStoreValueValidator`. -/
def NewStoreValueValidator
    (validatorFuncs : List (String → Bytes → Context → Option ValidationError)) :
    StoreValueValidator :=
  { validators := validatorFuncs }

/-- Loop body of `StoreValueValidator.Validate`. -/
def storeValueValidateAux
    (vs : List (String → Bytes → Context → Option ValidationError))
    (key : String) (value : Bytes) (ctx : Context) : Option GoErr :=
  match vs with
  | [] => none
  | f :: rest =>
      match f key value ctx with
      | some e => some e.Error
      | none => storeValueValidateAux rest key value ctx

/-- `StoreValueValidator.Validate`: run the value checks in order under a
`"value"` context carrying the key as metadata; return the first failure
converted to a plain error, else `nil`. -/
def StoreValueValidator.Validate (svv : StoreValueValidator) (key : String)
    (value : Bytes) : Option GoErr :=
  let ctx := (NewContext "value").WithMetadata "key" (.str key)
  storeValueValidateAux svv.validators key value ctx

/-- `NonEmptyKeyValidator` from `validated_store.go` (framework revision). -/
def NonEmptyKeyValidator : Validator String :=
  NotEmpty.WithName "non-empty-key"

/-- `KeyLengthValidator` from `validated_store.go` (framework revision). -/
def KeyLengthValidator (maxLength : Int) : Validator String :=
  (MaxLength maxLength).WithName "key-length"

/-- `ValueSizeValidator` from `validated_store.go` (framework revision):
fails with code `"value-too-large"` when the value exceeds `maxSize`. -/
def ValueSizeValidator (maxSize : Int) (key : String) (value : Bytes)
    (ctx : Context) : Option ValidationError :=
  if (value.length : Int) > maxSize then
    some (((((NewValidationError ctx.Target (.int value.length)
        ("value too large: maximum " ++ toString maxSize ++ " bytes, got " ++
          toString value.length)).WithMetadata
        "max-size" (.int maxSize)).WithMetadata
        "actual-size" (.int value.length)).WithMetadata
        "key" (.str key)).WithCode "value-too-large")
  else
    none

/-- `DefaultKeyValidators` (framework revision). -/
def DefaultKeyValidators : List (Validator String) :=
  [NonEmptyKeyValidator, KeyLengthValidator 1024]

/-- `DefaultValueValidators` (framework revision). -/
def DefaultValueValidators :
    List (String → Bytes → Context → Option ValidationError) :=
  [ValueSizeValidator (100 * 1024 * 1024)]

/-- `NewWithDefaultValidators` of the framework revision of
`validated_store.go` (suffixed `FW` to distinguish the two revisions in one
file): wraps the default key chain and value checks behind the adapters. -/
def NewWithDefaultValidatorsFW (s : InnerStore) : ValidatedStore :=
  New s
    (StoreKeyValidator.Validate (NewStoreKeyValidator DefaultKeyValidators))
    (StoreValueValidator.Validate
      (NewStoreValueValidator DefaultValueValidators))

/-- A trivial inner store used as a concrete instance in witnesses. -/
def emptyInner : InnerStore :=
  { get := fun _ => (none, false, none)
    put := fun _ _ => none
    delete := fun _ => none
    scan := fun _ => ([], none)
    close := none }

/-- A test-double validator that fails on every input. -/
def failAlways : Validator String :=
  NewValidator fun value ctx =>
    some (NewValidationError ctx.Target (.str value) "fail")

/-- A test-double validator that passes on every input. -/
def passAlways : Validator String :=
  NewValidator fun _ _ => none

theorem Go.mapGet_mapSet_self (m : List (String × GoVal)) (k : String)
    (v : GoVal) : mapGet (mapSet m k v) k = some v := by
  unfold mapSet mapGet
  by_cases h : m.any (fun p => p.1 = k)
  · simp only [h, if_pos]
    induction m with
    | nil => simp at h
    | cons p t ih =>
      by_cases hp : p.1 = k
      · simp [List.find?, hp]
      · simp only [List.any_cons, decide_eq_true_eq, hp, false_or] at h
        simp only [List.map_cons, if_neg hp, List.find?]
        rw [show (decide (p.1 = k)) = false by simp [hp]]
        exact ih h
  · simp only [h, if_neg, Bool.false_eq_true, not_false_iff]
    induction m with
    | nil => simp [List.find?]
    | cons p t ih =>
      simp only [List.any_cons, decide_eq_true_eq, Bool.or_eq_true,
        not_or] at h
      simp only [List.cons_append, List.find?]
      rw [show (decide (p.1 = k)) = false by simp [h.1]]
      exact ih (by simp [h.2])

theorem Go.find_replace_ne (m : List (String × GoVal)) (k k' : String)
    (v : GoVal) (hne : k' ≠ k) :
    (m.map (fun p => if p.1 = k then (k, v) else p)).find?
        (fun p => p.1 = k') =
      m.find? (fun p => p.1 = k') := by
  induction m with
  | nil => rfl
  | cons p t ih =>
    by_cases hp : p.1 = k
    · have h1 : (decide (k = k')) = false := by
        simp only [decide_eq_false_iff_not]
        exact fun hh => hne hh.symm
      have h2 : (decide (p.1 = k')) = false := by
        simp only [decide_eq_false_iff_not]
        intro hh
        exact hne (hh ▸ hp)
      simp only [List.map_cons, if_pos hp, List.find?, h1, h2]
      exact ih
    · by_cases hp' : p.1 = k'
      · have h2 : (decide (p.1 = k')) = true := by simp [hp']
        simp only [List.map_cons, if_neg hp, List.find?, h2]
      · have h2 : (decide (p.1 = k')) = false := by simp [hp']
        simp only [List.map_cons, if_neg hp, List.find?, h2]
        exact ih

theorem Go.find_append_single_ne (m : List (String × GoVal)) (k k' : String)
    (v : GoVal) (hne : k' ≠ k) :
    (m ++ [(k, v)]).find? (fun p => p.1 = k') =
      m.find? (fun p => p.1 = k') := by
  induction m with
  | nil =>
    have h1 : (decide (k = k')) = false := by
      simp only [decide_eq_false_iff_not]
      exact fun hh => hne hh.symm
    simp [List.find?, h1]
  | cons p t ih =>
    by_cases hp' : p.1 = k'
    · simp [List.find?, hp']
    · have h2 : (decide (p.1 = k')) = false := by simp [hp']
      simp only [List.cons_append, List.find?, h2]
      exact ih

theorem Go.mapGet_mapSet_ne (m : List (String × GoVal)) (k k' : String)
    (v : GoVal) (hne : k' ≠ k) :
    mapGet (mapSet m k v) k' = mapGet m k' := by
  unfold mapSet mapGet
  by_cases h : m.any (fun p => p.1 = k)
  · rw [if_pos h, Go.find_replace_ne m k k' v hne]
  · rw [if_neg h, Go.find_append_single_ne m k k' v hne]

theorem Go.length_mapSet (m : List (String × GoVal)) (k : String) (v : GoVal) :
    (mapSet m k v).length =
      if m.any (fun p => p.1 = k) then m.length else m.length + 1 := by
  unfold mapSet
  by_cases h : m.any (fun p => p.1 = k) <;> simp [h]

theorem chain_validate_foldl {T : Type} (l : List (Validator T)) (value : T)
    (ctx : Context) (acc : ValidationResult) :
    (l.foldl
        (fun errs vd =>
          match vd.Validate value ctx with
          | some e => errs.Add e
          | none => errs)
        acc).Errors =
      acc.Errors ++ l.filterMap (fun vd => vd.Validate value ctx) := by
  induction l generalizing acc with
  | nil => simp
  | cons vd rest ih =>
    simp only [List.foldl_cons, List.filterMap_cons]
    cases h : vd.Validate value ctx with
    | none => simp only [h]; rw [ih]
    | some e =>
      simp only [h]
      rw [ih]
      simp [ValidationResult.Add]

theorem chain_validate_errors {T : Type} (vc : ValidatorChain T) (value : T)
    (ctx : Context) :
    (vc.Validate value ctx).Errors =
      vc.validators.filterMap (fun vd => vd.Validate value ctx) := by
  unfold ValidatorChain.Validate
  rw [chain_validate_foldl]
  rfl

theorem validateFirstAux_eq_head {T : Type} (l : List (Validator T))
    (value : T) (ctx : Context) :
    validateFirstAux l value ctx =
      (l.filterMap (fun vd => vd.Validate value ctx)).head? := by
  induction l with
  | nil => rfl
  | cons vd rest ih =>
    simp only [validateFirstAux, List.filterMap_cons]
    cases h : vd.Validate value ctx with
    | none => simp only [ih]
    | some e => simp

theorem validateFirst_eq_head {T : Type} (vc : ValidatorChain T) (value : T)
    (ctx : Context) :
    vc.ValidateFirst value ctx =
      (vc.validators.filterMap (fun vd => vd.Validate value ctx)).head? :=
  validateFirstAux_eq_head vc.validators value ctx

theorem composeKeyValidators_eq_head (vs : List (String → Option GoErr))
    (key : String) :
    ComposeKeyValidators vs key = (vs.filterMap (fun f => f key)).head? := by
  induction vs with
  | nil => rfl
  | cons f rest ih =>
    simp only [ComposeKeyValidators, List.filterMap_cons]
    cases h : f key with
    | none => simp only [ih]
    | some e => simp

theorem composeValueValidators_eq_head
    (vs : List (String → Bytes → Option GoErr)) (key : String)
    (value : Bytes) :
    ComposeValueValidators vs key value =
      (vs.filterMap (fun f => f key value)).head? := by
  induction vs with
  | nil => rfl
  | cons f rest ih =>
    simp only [ComposeValueValidators, List.filterMap_cons]
    cases h : f key value with
    | none => simp only [ih]
    | some e => simp

/-- Claim C3: `ValidatorChain.Validate` invokes every validator in
add-order and returns a `ValidationResult` whose error list is exactly the
list of errors of the failing validators, in add-order (the `filterMap` of
the chain over the per-validator results). -/
theorem claim_C3_chain_validate_collects_in_order {T : Type}
    (vc : ValidatorChain T) (value : T) (ctx : Context) :
    (vc.Validate value ctx).Errors =
      vc.validators.filterMap (fun vd => vd.Validate value ctx) :=
  chain_validate_errors vc value ctx

/-- Claim C4: `ValidatorChain.ValidateFirst` returns the first non-absent
validator error in add-order (`head?` of the failing results), returns
`none` when every validator passes, and its result never depends on the
validators that come after a failing one: for any decomposition
`pre ++ post` of the chain in which `pre` already contains a failure, the
result is that of `pre` alone, for every `post`. -/
theorem claim_C4_validateFirst_short_circuit {T : Type}
    (vc : ValidatorChain T) (value : T) (ctx : Context) :
    (vc.ValidateFirst value ctx =
        (vc.validators.filterMap (fun vd => vd.Validate value ctx)).head?) ∧
      ((∀ vd ∈ vc.validators, vd.Validate value ctx = none) →
        vc.ValidateFirst value ctx = none) ∧
      (∀ pre post : List (Validator T), vc.validators = pre ++ post →
        pre.filterMap (fun vd => vd.Validate value ctx) ≠ [] →
        vc.ValidateFirst value ctx =
          (NewValidatorChain pre).ValidateFirst value ctx) := by
  refine ⟨validateFirst_eq_head vc value ctx, ?_, ?_⟩
  · intro hall
    rw [validateFirst_eq_head]
    have : vc.validators.filterMap (fun vd => vd.Validate value ctx) = [] := by
      rw [List.filterMap_eq_nil]
      intro vd hvd
      simp [hall vd hvd]
    rw [this]
    rfl
  · intro pre post hsplit hne
    rw [validateFirst_eq_head, validateFirst_eq_head, hsplit]
    simp only [NewValidatorChain, List.filterMap_append]
    cases hpre : pre.filterMap (fun vd => vd.Validate value ctx) with
    | nil => exact absurd hpre hne
    | cons e rest => simp

/-- Claim C4 witness: on the chain `[failAlways, passAlways]` at a concrete
input, `ValidateFirst` returns `failAlways`'s error, and discarding the
suffix after the failing validator does not change the result. -/
theorem claim_C4_witness :
    (NewValidatorChain [failAlways, passAlways]).ValidateFirst "x"
        (NewContext "k") =
      (NewValidatorChain [failAlways]).ValidateFirst "x" (NewContext "k") :=
  (claim_C4_validateFirst_short_circuit
      (NewValidatorChain [failAlways, passAlways]) "x"
      (NewContext "k")).2.2 [failAlways] [passAlways] rfl (by decide)

/-- Claim C5: `Context.WithMetadata` returns a new context whose metadata
is the receiver's metadata plus the entry `(k, v)`, replacing an existing
entry under `k` (last-wins); the target is preserved, every other key is
unchanged, and the size grows only when `k` was absent. The receiver is a
pure value in the embedding, so it is untouched by construction. -/
theorem claim_C5_withMetadata_copy_on_write (c : Context) (k : String)
    (v : GoVal) :
    ((c.WithMetadata k v).Target = c.Target) ∧
      (Go.mapGet (c.WithMetadata k v).Metadata k = some v) ∧
      (∀ k', k' ≠ k →
        Go.mapGet (c.WithMetadata k v).Metadata k' = Go.mapGet c.Metadata k') ∧
      ((c.WithMetadata k v).Metadata.length =
        if c.Metadata.any (fun p => p.1 = k) then c.Metadata.length
        else c.Metadata.length + 1) := by
  refine ⟨rfl, ?_, ?_, ?_⟩
  · exact Go.mapGet_mapSet_self c.Metadata k v
  · intro k' hne
    exact Go.mapGet_mapSet_ne c.Metadata k k' v hne
  · exact Go.length_mapSet c.Metadata k v

/-- Claim C5 witness: a concrete context with an existing entry under
`"a"`; overwriting `"a"` keeps the size and other keys, and yields the new
value. -/
theorem claim_C5_witness :
    ((((NewContext "t").WithMetadata "a" (.int 1)).WithMetadata "b"
          (.int 2)).WithMetadata "a" (.int 3)).Target = "t" ∧
      Go.mapGet
          ((((NewContext "t").WithMetadata "a" (.int 1)).WithMetadata "b"
              (.int 2)).WithMetadata "a" (.int 3)).Metadata "a" =
        some (.int 3) ∧
      Go.mapGet
          ((((NewContext "t").WithMetadata "a" (.int 1)).WithMetadata "b"
              (.int 2)).WithMetadata "a" (.int 3)).Metadata "b" =
        Go.mapGet
          (((NewContext "t").WithMetadata "a" (.int 1)).WithMetadata "b"
            (.int 2)).Metadata "b" ∧
      ((((NewContext "t").WithMetadata "a" (.int 1)).WithMetadata "b"
            (.int 2)).WithMetadata "a" (.int 3)).Metadata.length = 2 := by
  have h := claim_C5_withMetadata_copy_on_write
    (((NewContext "t").WithMetadata "a" (.int 1)).WithMetadata "b" (.int 2))
    "a" (.int 3)
  refine ⟨h.1, h.2.1, h.2.2.1 "b" (by decide), ?_⟩
  rw [h.2.2.2]
  decide

/-- Claim C1: when a `ValidatedStore` operation's validation fails, the
inner store is never invoked (the invocation flag is `false` and the result
does not depend on the inner store or, for `Put`, on the value validator,
both universally quantified) and only the validation error is returned:
`Get` yields `(nil, found=false, err)`, `Put` and `Delete` yield `err`; and
the composed validators return the error of the first violated rule. -/
theorem claim_C1_validation_failure_is_local (s : InnerStore)
    (kv : String → Option GoErr) (vv : String → Bytes → Option GoErr)
    (key : String) (value : Bytes) (e : GoErr) :
    (kv key = some e →
        (New s kv vv).Get key = ((none, false, some e), false) ∧
          (New s kv vv).Put key value = (some e, false) ∧
          (New s kv vv).Delete key = (some e, false)) ∧
      (kv key = none → vv key value = some e →
        (New s kv vv).Put key value = (some e, false)) ∧
      (∀ fs : List (String → Option GoErr),
        ComposeKeyValidators fs key = (fs.filterMap (fun f => f key)).head?) ∧
      (∀ fs : List (String → Bytes → Option GoErr),
        ComposeValueValidators fs key value =
          (fs.filterMap (fun f => f key value)).head?) := by
  refine ⟨?_, ?_, fun fs => composeKeyValidators_eq_head fs key,
    fun fs => composeValueValidators_eq_head fs key value⟩
  · intro hk
    refine ⟨?_, ?_, ?_⟩ <;>
      simp [New, ValidatedStore.Get, ValidatedStore.Put,
        ValidatedStore.Delete, hk]
  · intro hk hv
    simp [New, ValidatedStore.Put, hk, hv]

/-- Claim C1 witness: a failing key validator makes `Put` return its error
without the inner store; a failing value validator (after a passing key)
does the same. -/
theorem claim_C1_witness :
    (New emptyInner (fun _ => some "boom") (fun _ _ => none)).Put "k" [] =
        (some "boom", false) ∧
      (New emptyInner (fun _ => none) (fun _ _ => some "big")).Put "k" [] =
        (some "big", false) :=
  ⟨((claim_C1_validation_failure_is_local emptyInner (fun _ => some "boom")
      (fun _ _ => none) "k" [] "boom").1 rfl).2.1,
    (claim_C1_validation_failure_is_local emptyInner (fun _ => none)
      (fun _ _ => some "big") "k" [] "big").2.1 rfl rfl⟩

theorem defaultPut_cases (s : InnerStore) (key : String) (value : Bytes) :
    (NewWithDefaultValidators s).Put key value =
      if key = "" then (some "key cannot be empty", false)
      else if 1024 < goLen key then
        (some ("key too long: maximum " ++ toString (1024 : Int) ++
          " characters, got " ++ toString (goLen key)), false)
      else if 100 * 1024 * 1024 < value.length then
        (some ("value too large: maximum " ++
          toString (100 * 1024 * 1024 : Int) ++ " bytes, got " ++
          toString value.length), false)
      else (s.put key value, true) := by
  by_cases h1 : key = ""
  · simp [NewWithDefaultValidators, New, ValidatedStore.Put,
      ComposeKeyValidators, ValidateNonEmptyKey, h1]
  · by_cases h2 : 1024 < goLen key
    · simp [NewWithDefaultValidators, New, ValidatedStore.Put,
        ComposeKeyValidators, ValidateNonEmptyKey, ValidateKeyLength, h1, h2]
    · by_cases h3 : 100 * 1024 * 1024 < value.length
      · simp [NewWithDefaultValidators, New, ValidatedStore.Put,
          ComposeKeyValidators, ComposeValueValidators, ValidateNonEmptyKey,
          ValidateKeyLength, ValidateValueSize, h1, h2, h3]
      · simp [NewWithDefaultValidators, New, ValidatedStore.Put,
          ComposeKeyValidators, ComposeValueValidators, ValidateNonEmptyKey,
          ValidateKeyLength, ValidateValueSize, h1, h2, h3]

/-- Claim C2: with the default validators, `Put` reaches the inner store
exactly when the key passes the non-empty check (`key ≠ ""`), `len(key)` is
at most 1024, and `len(value)` is at most `100 * 1024 * 1024`; a key longer
than 1024 is rejected with the key-length rule's error, and an oversize
value under a valid key is rejected with the value-size rule's error, both
without invoking the inner store. -/
theorem claim_C2_default_put_gate (s : InnerStore) (key : String)
    (value : Bytes) :
    (((NewWithDefaultValidators s).Put key value).2 = true ↔
        (key ≠ "" ∧ goLen key ≤ 1024 ∧
          value.length ≤ 100 * 1024 * 1024)) ∧
      (goLen key > 1024 →
        (NewWithDefaultValidators s).Put key value =
          (some ("key too long: maximum " ++ toString (1024 : Int) ++
            " characters, got " ++ toString (goLen key)), false)) ∧
      (key ≠ "" → goLen key ≤ 1024 → value.length > 100 * 1024 * 1024 →
        (NewWithDefaultValidators s).Put key value =
          (some ("value too large: maximum " ++
            toString (100 * 1024 * 1024 : Int) ++ " bytes, got " ++
            toString value.length), false)) := by
  refine ⟨?_, ?_, ?_⟩
  · rw [defaultPut_cases]
    by_cases h1 : key = ""
    · simp [h1]
    · by_cases h2 : 1024 < goLen key
      · rw [if_neg h1, if_pos h2]
        constructor
        · intro hc
          exact absurd hc (by simp)
        · intro ⟨_, hle, _⟩
          omega
      · by_cases h3 : 100 * 1024 * 1024 < value.length
        · rw [if_neg h1, if_neg h2, if_pos h3]
          constructor
          · intro hc
            exact absurd hc (by simp)
          · intro ⟨_, _, hle⟩
            omega
        · rw [if_neg h1, if_neg h2, if_neg h3]
          constructor
          · intro _
            exact ⟨h1, by omega, by omega⟩
          · intro _
            rfl
  · intro hlong
    rw [defaultPut_cases]
    have h1 : key ≠ "" := by
      intro hc
      rw [hc] at hlong
      exact absurd hlong (by decide)
    rw [if_neg h1, if_pos hlong]
  · intro h1 h2 h3
    rw [defaultPut_cases, if_neg h1, if_neg (by omega), if_pos h3]

set_option maxRecDepth 40000 in
/-- Claim C2 witness: a 1025-byte key is rejected with the key-length
rule's error, and a value one byte over the 100 MiB limit is rejected with
the value-size rule's error, without the inner store. -/
theorem claim_C2_witness :
    (NewWithDefaultValidators emptyInner).Put
          (String.mk (List.replicate 1025 'a')) [] =
        (some ("key too long: maximum " ++ toString (1024 : Int) ++
          " characters, got " ++
          toString (goLen (String.mk (List.replicate 1025 'a')))), false) ∧
      (NewWithDefaultValidators emptyInner).Put "k"
          (List.replicate 104857601 0) =
        (some ("value too large: maximum " ++
          toString (100 * 1024 * 1024 : Int) ++ " bytes, got " ++
          toString (List.replicate 104857601 (0 : Nat)).length), false) := by
  constructor
  · exact (claim_C2_default_put_gate emptyInner
      (String.mk (List.replicate 1025 'a')) []).2.1 (by decide)
  · exact (claim_C2_default_put_gate emptyInner "k"
      (List.replicate 104857601 0)).2.2 (by decide) (by decide)
      (by rw [List.length_replicate]; norm_num)

/-- Claim C6 counterexample: for an error built with target `"username"`
and the supplied message `"invalid username"`, `Error()` returns the
message alone, not `"username: invalid username"` as the claim states. -/
theorem claim_C6_counterexample :
    (NewValidationError "username" (.str "test") "invalid username").Error =
        "invalid username" ∧
      (NewValidationError "username" (.str "test")
          "invalid username").Error ≠ "username: invalid username" := by
  exact ⟨rfl, by decide⟩

/-- Claim C6 amended: when a message was supplied, `Error()` returns that
message itself (with no target prefix); when no message was supplied
(`Message` is `nil`), `Error()` returns the default
`"<target>: validation failed for \"<value>\""`; `NewValidationError`
always records the supplied message. -/
theorem claim_C6_amended_error_string (e : ValidationError) (m : String) :
    (e.errorData.Message = some m → e.Error = m) ∧
      (e.errorData.Message = none →
        e.Error =
          e.Target ++ ": validation failed for \"" ++ e.Value.render ++
            "\"") ∧
      (∀ (t : String) (v : GoVal) (msg : String),
        (NewValidationError t v msg).errorData.Message = some msg) := by
  refine ⟨?_, ?_, fun _ _ _ => rfl⟩
  · intro h
    unfold ValidationError.Error
    rw [h]
  · intro h
    unfold ValidationError.Error
    rw [h]

/-- Claim C6 amended witness: both branches at concrete errors. -/
theorem claim_C6_amended_witness :
    (NewValidationError "username" (.str "test")
        "invalid username").Error = "invalid username" ∧
      ({ errorData := NewErrorData errType defaultCode none,
          Target := "email", Value := .str "invalid@email" } :
          ValidationError).Error =
        "email: validation failed for \"invalid@email\"" := by
  constructor
  · exact (claim_C6_amended_error_string
      (NewValidationError "username" (.str "test") "invalid username")
      "invalid username").1 rfl
  · have h := (claim_C6_amended_error_string
      ({ errorData := NewErrorData errType defaultCode none,
          Target := "email", Value := .str "invalid@email" } :
          ValidationError) "").2.1 rfl
    rw [h]
    rfl

/-- Claim C7: on a default-configured (framework revision) `ValidatedStore`,
`Put("", v)` returns the plain-error rendering of the error produced by the
not-empty key rule, whose code is `"not-empty"`, and the inner store's
`Put` is never invoked (flag `false`, for every inner store and value). -/
theorem claim_C7_put_empty_key_not_empty (s : InnerStore) (value : Bytes) :
    NonEmptyKeyValidator.Validate "" (NewContext "key") =
        some ((NewValidationError "key" (.str "")
          "key: must not be empty").WithCode "not-empty") ∧
      ((NewValidationError "key" (.str "")
          "key: must not be empty").WithCode "not-empty").Code =
        "not-empty" ∧
      ((NewValidationError "key" (.str "")
          "key: must not be empty").WithCode "not-empty").Error =
        "key: must not be empty" ∧
      (NewWithDefaultValidatorsFW s).Put "" value =
        (some "key: must not be empty", false) := by
  exact ⟨rfl, rfl, rfl, rfl⟩

/-- Claim C8: `ValidatedStore.Scan` performs no validation of its argument
and returns exactly the inner store's `Scan` result, for every prefix
string (including the empty string), every configuration of validators, and
both default configurations; the inner store is always invoked. -/
theorem claim_C8_scan_delegates (s : InnerStore)
    (kv : String → Option GoErr) (vv : String → Bytes → Option GoErr)
    (pfx : String) :
    (New s kv vv).Scan pfx = (s.scan pfx, true) ∧
      (NewWithDefaultValidators s).Scan pfx = (s.scan pfx, true) ∧
      (NewWithDefaultValidatorsFW s).Scan pfx = (s.scan pfx, true) :=
  ⟨rfl, rfl, rfl⟩

/-- Claim C9: the key adapter `StoreKeyValidator.Validate` is
observationally equivalent to converting the chain's `ValidateFirst` result
(under the same `"key"` context) into a plain error: it returns `nil`
exactly when `ValidateFirst` does, and otherwise the message of the first
failing validator's error. -/
theorem claim_C9_key_adapter_equiv_validateFirst
    (chain : ValidatorChain String) (key : String) :
    (StoreKeyValidator.Validate ⟨chain⟩ key = none ↔
        chain.ValidateFirst key (NewContext "key") = none) ∧
      (∀ e : ValidationError,
        chain.ValidateFirst key (NewContext "key") = some e →
          StoreKeyValidator.Validate ⟨chain⟩ key = some e.Error) := by
  have hs : StoreKeyValidator.Validate ⟨chain⟩ key =
      (match (chain.Validate key (NewContext "key")).Errors with
        | [] => none
        | e :: _ => some e.Error) := rfl
  have herr := chain_validate_errors chain key (NewContext "key")
  constructor
  · rw [hs, herr, validateFirst_eq_head]
    cases hfm : chain.validators.filterMap
        (fun vd => vd.Validate key (NewContext "key")) with
    | nil => simp
    | cons e rest => simp
  · intro e he
    rw [validateFirst_eq_head] at he
    rw [hs, herr]
    cases hfm : chain.validators.filterMap
        (fun vd => vd.Validate key (NewContext "key")) with
    | nil => rw [hfm] at he; exact absurd he (by simp)
    | cons e0 rest =>
        rw [hfm] at he
        simp only [List.head?] at he
        cases he
        rfl

/-- Claim C9 witness: on the one-validator chain `[failAlways]` at `"x"`,
`ValidateFirst` fails and the adapter returns that error's message. -/
theorem claim_C9_witness :
    StoreKeyValidator.Validate ⟨NewValidatorChain [failAlways]⟩ "x" =
      some (NewValidationError "key" (.str "x") "fail").Error :=
  (claim_C9_key_adapter_equiv_validateFirst
      (NewValidatorChain [failAlways]) "x").2
    (NewValidationError "key" (.str "x") "fail") rfl

/-- Claim C10: `Pattern` compiles its argument eagerly at construction time
(the Go `regexp` engine is a parameter: `compile` for `regexp.Compile`,
`matchFn` for `MatchString`): on an invalid pattern it panics
(`Except.error`) instead of returning a validator, and on a valid pattern
the returned validator is total and fails, with code `"pattern-mismatch"`,
exactly on strings the compiled regex does not match. -/
theorem claim_C10_pattern_eager_compile (R : Type)
    (compile : String → Option R) (matchFn : R → String → Bool)
    (pattern : String) :
    (compile pattern = none →
        ∃ msg, Pattern compile matchFn pattern = Except.error msg) ∧
      (∀ regex : R, compile pattern = some regex →
        ∃ v : Validator String,
          Pattern compile matchFn pattern = Except.ok v ∧
            ∀ (s : String) (ctx : Context),
              (v.Validate s ctx = none ↔ matchFn regex s = true) ∧
              (matchFn regex s = false →
                ∃ e, v.Validate s ctx = some e ∧
                  e.Code = "pattern-mismatch")) := by
  constructor
  · intro h
    unfold Pattern
    rw [h]
    exact ⟨_, rfl⟩
  · intro regex h
    unfold Pattern
    rw [h]
    refine ⟨_, rfl, ?_⟩
    intro s ctx
    constructor
    · cases hm : matchFn regex s <;> simp [NewValidator, hm]
    · intro hm
      cases hm' : matchFn regex s with
      | true => rw [hm'] at hm; exact absurd hm (by simp)
      | false =>
          refine ⟨((NewValidationError ctx.Target (.str s)
            (ctx.Target ++ ": does not match required pattern")).WithMetadata
            "pattern" (.str pattern)).WithCode "pattern-mismatch", ?_, rfl⟩
          simp [NewValidator, hm']

/-- Claim C10 witness: with a stub engine that rejects the pattern `"("`
and matches exactly the string `"a"`, `Pattern` panics on `"("` and on
`"a"` yields a validator failing exactly on non-matching strings. -/
theorem claim_C10_witness :
    (∃ msg, Pattern (fun p => if p = "(" then (none : Option Unit) else
        some ()) (fun _ s => decide (s = "a")) "(" = Except.error msg) ∧
      (∃ v : Validator String,
        Pattern (fun p => if p = "(" then (none : Option Unit) else some ())
            (fun _ s => decide (s = "a")) "a" = Except.ok v ∧
          ∀ (s : String) (ctx : Context),
            (v.Validate s ctx = none ↔ decide (s = "a") = true) ∧
            (decide (s = "a") = false →
              ∃ e, v.Validate s ctx = some e ∧
                e.Code = "pattern-mismatch")) := by
  constructor
  · exact (claim_C10_pattern_eager_compile Unit
      (fun p => if p = "(" then none else some ())
      (fun _ s => decide (s = "a")) "(").1 (by rfl)
  · exact (claim_C10_pattern_eager_compile Unit
      (fun p => if p = "(" then none else some ())
      (fun _ s => decide (s = "a")) "a").2 () (by rfl)

end Clavis
